import Mathlib

namespace Kaleidoscope

/-!
Shallow embedding of the Kaleidoscope front end (src/parser.cpp).

The repository holds two variants of the front end separated by a document
marker: a parser-only variant and a variant that additionally lowers the
AST to LLVM IR.  The lexer and the expression parser are identical in the
two variants; the definitions below are translated from the source, with
the C global state (the one-character pushback slot `last_char`, the
current-token cursor `curr_token`, the scope map `named_values`, the LLVM
module) made explicit.

Conventions:
* `readChar` models `getchar()` on the remaining input: it returns the
  character code, or -1 (EOF) when the stream is exhausted, as in C.
* Numeric literals keep their source text: the C code converts the scanned
  digit/dot run with `strtod` into a `double`; that conversion targets
  floating point, so the embedding tracks the scanned string itself, which
  is an injective image of what the program computes on well-formed
  numerals.
-/

/-- C `isspace` applied to the `int` holding the last read character
(-1 when it holds EOF). -/
def isSpaceC (c : Int) : Bool := c = 32 || (9 ≤ c && c ≤ 13)

/-- C `isalpha` (C locale). -/
def isAlphaC (c : Int) : Bool := (65 ≤ c && c ≤ 90) || (97 ≤ c && c ≤ 122)

/-- C `isdigit`. -/
def isDigitC (c : Int) : Bool := 48 ≤ c && c ≤ 57

/-- C `isalnum` (C locale). -/
def isAlnumC (c : Int) : Bool := isAlphaC c || isDigitC c

/-- `getchar()`: next character code from the stream, -1 at end of input. -/
def readChar : List Char → Int × List Char
  | [] => (-1, [])
  | c :: r => ((c.toNat : Int), r)

/-- The `while (isspace(last_char)) last_char = getchar();` loop of
`get_token`.  Returns the new `last_char` and the remaining input. -/
def skipSpaces : Int → List Char → Int × List Char
  | c, [] => if isSpaceC c then (-1, []) else (c, [])
  | c, d :: r => if isSpaceC c then skipSpaces ((d.toNat : Int)) r else (c, d :: r)

/-- The run-collecting loops of `get_token`: while `keep last_char`,
append `last_char` to the accumulator and advance.  Used with `isAlnumC`
for the identifier loop and with digit-or-dot for the number loop. -/
def readRun (keep : Int → Bool) : String → Int → List Char → String × Int × List Char
  | acc, c, [] =>
      if keep c then (acc.push (Char.ofNat c.toNat), -1, []) else (acc, c, [])
  | acc, c, d :: r =>
      if keep c then readRun keep (acc.push (Char.ofNat c.toNat)) ((d.toNat : Int)) r
      else (acc, c, d :: r)

/-- The comment loop of `get_token`:
`while (last_char != EOF && last_char != '\n' && last_char != '\r') last_char = getchar();`. -/
def skipToEol : Int → List Char → Int × List Char
  | c, [] => if c = -1 || c = 10 || c = 13 then (c, []) else (-1, [])
  | c, d :: r =>
      if c = -1 || c = 10 || c = 13 then (c, d :: r)
      else skipToEol ((d.toNat : Int)) r

/-- Tokens.  In the source, `get_token` returns an `int`: the negative
`Token` enumerators, or a character code for "some other ascii symbol";
the payload of an identifier or number token lives in the globals
`identifier_string` / `number_val`.  The embedding attaches the payloads
to the token. -/
inductive Tok where
  | eof
  | kdef
  | kextern
  | ident (s : String)
  | num (s : String)
  | sym (c : Int)
deriving DecidableEq, Repr

theorem skipSpaces_length (c : Int) (inp : List Char) :
    (skipSpaces c inp).2.length ≤ inp.length := by
  induction inp generalizing c with
  | nil => simp [skipSpaces]; split <;> simp
  | cons d r ih =>
      simp only [skipSpaces]
      split
      · exact Nat.le_succ_of_le (ih _)
      · simp

theorem skipToEol_length (c : Int) (inp : List Char) :
    (skipToEol c inp).2.length ≤ inp.length := by
  induction inp generalizing c with
  | nil => simp [skipToEol]; split <;> simp
  | cons d r ih =>
      simp only [skipToEol]
      split
      · simp
      · exact Nat.le_succ_of_le (ih _)

theorem readChar_length (inp : List Char) :
    (readChar inp).2.length ≤ inp.length := by
  cases inp <;> simp [readChar]

theorem readChar_length_lt (inp : List Char) (h : inp ≠ []) :
    (readChar inp).2.length < inp.length := by
  cases inp with
  | nil => exact absurd rfl h
  | cons a r => simp [readChar]

theorem readChar_nil : readChar [] = (-1, []) := rfl

theorem skipToEol_neg1 (inp : List Char) : skipToEol (-1) inp = (-1, inp) := by
  cases inp <;> simp [skipToEol]

/-- `get_token()` (parser.cpp:22-73 and 473-526; both variants are
identical).  Input: the persistent `last_char` slot and the remaining
character stream; output: the token together with the new slot and
stream.  The `#` comment branch ends in `return get_token();` — the
recursive call — and falls through to the EOF check when the comment runs
to end of input.

That self-call is the only recursion, and it is reached only after the
branch has consumed at least one input character, so its depth is bounded
by the input length; the recursion is therefore paid for by an explicit
bound decremented exactly at the self-call, set by the `get_token`
wrapper below to more than the input length so that it can never run out
(`get_token_core_stable` proves the value does not depend on the bound). -/
def get_token_core : Nat → Int → List Char → Tok × Int × List Char
  | 0, _, inp => (Tok.eof, -1, inp)
  | fuel + 1, lc, inp =>
    match skipSpaces lc inp with
    | (c, inp1) =>
      if isAlphaC c then
        -- identifier_string = last_char; last_char = getchar(); while isalnum: append
        match readChar inp1 with
        | (d, inp2) =>
          match readRun isAlnumC (String.singleton (Char.ofNat c.toNat)) d inp2 with
          | (s, e, inp3) =>
            (if s = "def" then Tok.kdef else if s = "extern" then Tok.kextern
             else Tok.ident s, e, inp3)
      else if isDigitC c then
        match readChar inp1 with
        | (d, inp2) =>
          match readRun (fun x => isDigitC x || x = 46) (String.singleton (Char.ofNat c.toNat)) d inp2 with
          | (s, e, inp3) => (Tok.num s, e, inp3)
      else if c = 35 then
        match readChar inp1 with
        | (d, inp2) =>
          match skipToEol d inp2 with
          | (e, inp3) =>
            if e ≠ -1 then
              match readChar inp3 with
              | (f, inp4) => get_token_core fuel f inp4
            else
              -- falls through to the `last_char == EOF` check, which fires
              (Tok.eof, -1, inp3)
      else if c = -1 then
        (Tok.eof, -1, inp1)
      else
        match readChar inp1 with
        | (d, inp2) => (Tok.sym c, d, inp2)

/-- `get_token()`: the recursion bound exceeds the input length, so it
never runs out (see `get_token_core_stable`). -/
def get_token (lc : Int) (inp : List Char) : Tok × Int × List Char :=
  get_token_core (inp.length + 1) lc inp

/-- The recursion bound is inert: any bound exceeding the input length
gives the same result, so `get_token` computes the source function's
value. -/
theorem get_token_core_stable : ∀ (n f1 f2 : Nat) (lc : Int) (inp : List Char),
    inp.length ≤ n → inp.length < f1 → inp.length < f2 →
    get_token_core f1 lc inp = get_token_core f2 lc inp := by
  intro n
  induction n with
  | zero =>
    intro f1 f2 lc inp h0 h1 h2
    have hnil : inp = [] := List.length_eq_zero.mp (Nat.le_zero.mp h0)
    subst hnil
    obtain ⟨a, rfl⟩ : ∃ a, f1 = a + 1 := ⟨f1 - 1, by omega⟩
    obtain ⟨b, rfl⟩ : ∃ b, f2 = b + 1 := ⟨f2 - 1, by omega⟩
    simp only [get_token_core]
    have hs : ∀ c : Int, skipSpaces c ([] : List Char) =
        (if isSpaceC c then (-1, []) else (c, [])) := fun c => rfl
    rw [hs]
    by_cases hsp : isSpaceC lc <;> simp only [hsp, if_true, if_false] <;>
      simp [readChar, skipToEol]
  | succ n ih =>
    intro f1 f2 lc inp h0 h1 h2
    obtain ⟨a, rfl⟩ : ∃ a, f1 = a + 1 := ⟨f1 - 1, by omega⟩
    obtain ⟨b, rfl⟩ : ∃ b, f2 = b + 1 := ⟨f2 - 1, by omega⟩
    simp only [get_token_core]
    rcases hsk : skipSpaces lc inp with ⟨c, inp1⟩
    have l1 : inp1.length ≤ inp.length := by
      have := skipSpaces_length lc inp
      rw [hsk] at this
      exact this
    by_cases ha : isAlphaC c
    · simp [ha]
    · by_cases hd : isDigitC c
      · simp [ha, hd]
      · by_cases hc : c = 35
        · simp only [ha, hd, hc, if_true, if_false]
          rcases hrc : readChar inp1 with ⟨d, inp2⟩
          rcases hse : skipToEol d inp2 with ⟨e, inp3⟩
          by_cases he : e = -1
          · simp [he]
          · simp only [he, ne_eq, not_false_iff, if_true]
            rcases hrc2 : readChar inp3 with ⟨f, inp4⟩
            have hne : inp1 ≠ [] := by
              intro hnil
              subst hnil
              rw [readChar_nil] at hrc
              obtain ⟨hdd, hii⟩ := (Prod.mk.injEq _ _ _ _).mp hrc
              rw [← hdd, ← hii, skipToEol_neg1] at hse
              exact he ((Prod.mk.injEq _ _ _ _).mp hse).1.symm
            have l2 : inp2.length < inp1.length := by
              have := readChar_length_lt inp1 hne
              rw [hrc] at this
              exact this
            have l3 : inp3.length ≤ inp2.length := by
              have := skipToEol_length d inp2
              rw [hse] at this
              exact this
            have l4 : inp4.length ≤ inp3.length := by
              have := readChar_length inp3
              rw [hrc2] at this
              exact this
            exact ih a b f inp4 (by omega) (by omega) (by omega)
        · simp [ha, hd, hc]

/-- Run `get_token` repeatedly (at most `n` calls), stopping after the
first end-of-input token, collecting the produced tokens. -/
def lexSteps : Nat → Int → List Char → List Tok
  | 0, _, _ => []
  | n + 1, lc, inp =>
    match get_token lc inp with
    | (t, lc1, inp1) => t :: (if t = Tok.eof then [] else lexSteps n lc1 inp1)

/-- The token sequence of a source string: `get_token` is called starting
from the initial state `last_char = ' '` (parser.cpp:23). -/
def tokensOf (s : String) : List Tok :=
  lexSteps (s.toList.length + 1) 32 s.toList

/-!
## Parser

The parser reads tokens through the cursor `curr_token`, advanced by
`get_next_token()`.  Because the lexer is deterministic, the embedding
lets the parse functions consume a pre-lexed token stream: the cursor is
an explicit `Tok` argument and `advance` yields the next token (the end
token once the stream is exhausted — mirrored by the lexer, whose end
token is absorbing, see the EOF theorems below).

All parse functions take a fuel argument decremented on every nested
call; exhausted fuel yields `none`, as does a parse error, matching the
`nullptr` failure signalling of the source.  The proved properties only
assert successful parses, which insufficient fuel can never fabricate.
-/

/-- `get_next_token()` against a pre-lexed stream. -/
def advance : List Tok → Tok × List Tok
  | [] => (Tok.eof, [])
  | t :: ts => (t, ts)

/-- The integer value `curr_token` holds for a given token: the negative
`Token` enumerators (parser.cpp:12-18), or the character code itself. -/
def tokInt : Tok → Int
  | Tok.eof => -1
  | Tok.kdef => -2
  | Tok.kextern => -3
  | Tok.ident _ => -4
  | Tok.num _ => -5
  | Tok.sym c => c

/-- AST expressions (parser.cpp:75-115).  A number literal keeps the
scanned numeral text (the source stores `number_val`, its `strtod`
image); a binary node keeps the operator character code. -/
inductive AstExpr where
  | num (s : String)
  | var (name : String)
  | binary (op : Int) (lhs rhs : AstExpr)
  | call (callee : String) (args : List AstExpr)
deriving Repr

/-- `get_binary_precedence` (parser.cpp:233-245 and 787-799): `<` (60) is
10, `+` (43) and `-` (45) are 20, `*` (42) is 40, everything else -1.
The source takes a `char`; the call sites pass `curr_token`, whose values
all lie in the faithful range of the truncation. -/
def get_binary_precedence (op : Int) : Int :=
  if op = 60 then 10
  else if op = 43 then 20
  else if op = 45 then 20
  else if op = 42 then 40
  else -1

mutual

/-- `parse_expr` (parser.cpp:282-288): a primary followed by
`parse_bin_op_rhs(0, lhs)`. -/
def parse_expr (fuel : Nat) (c : Tok) (ts : List Tok) :
    Option (AstExpr × Tok × List Tok) :=
  match fuel with
  | 0 => none
  | fuel + 1 =>
    match parse_primary fuel c ts with
    | none => none
    | some (lhs, c1, ts1) => parse_bin_op_rhs fuel 0 lhs c1 ts1

/-- `parse_primary` (parser.cpp:219-230): identifier, number, or
parenthesised expression; anything else is an error. -/
def parse_primary (fuel : Nat) (c : Tok) (ts : List Tok) :
    Option (AstExpr × Tok × List Tok) :=
  match fuel with
  | 0 => none
  | fuel + 1 =>
    match c with
    | Tok.ident s => parse_identifier fuel s ts
    | Tok.num s =>
        -- parse_number: literal from number_val, then advance
        match advance ts with
        | (c1, ts1) => some (AstExpr.num s, c1, ts1)
    | Tok.sym k =>
        if k = 40 then parse_paren_expr fuel ts
        else none  -- log_error_expr "Unexpected token ..."
    | _ => none    -- log_error_expr "Unexpected token ..."

/-- `parse_paren_expr` (parser.cpp:173-185): current token is `(`. -/
def parse_paren_expr (fuel : Nat) (ts : List Tok) :
    Option (AstExpr × Tok × List Tok) :=
  match fuel with
  | 0 => none
  | fuel + 1 =>
    match advance ts with
    | (c1, ts1) =>
      match parse_expr fuel c1 ts1 with
      | none => none
      | some (e, c2, ts2) =>
        if c2 = Tok.sym 41 then
          match advance ts2 with
          | (c3, ts3) => some (e, c3, ts3)
        else none  -- log_error_expr "Expected ')'"

/-- `parse_identifier` (parser.cpp:187-217 and 741-771): current token is
an identifier whose name is `name` (`identifier_string`).  If no `(`
follows it is a variable reference; otherwise a call whose argument loop
is `parse_call_args`. -/
def parse_identifier (fuel : Nat) (name : String) (ts : List Tok) :
    Option (AstExpr × Tok × List Tok) :=
  match fuel with
  | 0 => none
  | fuel + 1 =>
    match advance ts with
    | (c1, ts1) =>
      if c1 ≠ Tok.sym 40 then some (AstExpr.var name, c1, ts1)
      else
        match advance ts1 with  -- discard '('
        | (c2, ts2) =>
          if c2 = Tok.sym 41 then
            match advance ts2 with  -- discard ')'
            | (c3, ts3) => some (AstExpr.call name [], c3, ts3)
          else
            match parse_call_args fuel [] c2 ts2 with
            | none => none
            | some (args, _, ts3) =>
              match advance ts3 with  -- discard ')'
              | (c4, ts4) => some (AstExpr.call name args, c4, ts4)

/-- The `while (true)` argument loop of `parse_identifier`
(parser.cpp:200-212).  Note the loop, as in the source, never advances
past a `,`: after an argument, a `)` breaks, a `,` re-enters the loop
with the comma still the current token, and anything else is an error. -/
def parse_call_args (fuel : Nat) (acc : List AstExpr) (c : Tok) (ts : List Tok) :
    Option (List AstExpr × Tok × List Tok) :=
  match fuel with
  | 0 => none
  | fuel + 1 =>
    match parse_expr fuel c ts with
    | none => none
    | some (arg, c1, ts1) =>
      if c1 = Tok.sym 41 then some (acc ++ [arg], c1, ts1)
      else if c1 ≠ Tok.sym 44 then none  -- log_error_expr "Expected ',' or ')'"
      else parse_call_args fuel (acc ++ [arg]) c1 ts1

/-- `parse_bin_op_rhs` (parser.cpp:247-277 and 801-831).  The `while
(true)` loop is the tail self-call with the same `lhs_prec`; the inner
recursive call fires only when the lookahead precedence is strictly
greater than the consumed operator's. -/
def parse_bin_op_rhs (fuel : Nat) (lhs_prec : Int) (lhs : AstExpr) (c : Tok)
    (ts : List Tok) : Option (AstExpr × Tok × List Tok) :=
  match fuel with
  | 0 => none
  | fuel + 1 =>
    let curr_prec := get_binary_precedence (tokInt c)
    if curr_prec < lhs_prec then some (lhs, c, ts)
    else
      let op := tokInt c
      match advance ts with  -- eat operator
      | (c1, ts1) =>
        match parse_primary fuel c1 ts1 with
        | none => none
        | some (rhs, c2, ts2) =>
          let next_prec := get_binary_precedence (tokInt c2)
          if curr_prec < next_prec then
            match parse_bin_op_rhs fuel (curr_prec + 1) rhs c2 ts2 with
            | none => none
            | some (rhs2, c3, ts3) =>
              parse_bin_op_rhs fuel lhs_prec (AstExpr.binary op lhs rhs2) c3 ts3
          else
            parse_bin_op_rhs fuel lhs_prec (AstExpr.binary op lhs rhs) c2 ts2

end

/-- Run `parse_expr` on a token stream, priming the cursor as the driver
does with its initial `get_next_token()`; the fuel bound exceeds any
possible recursion depth for the stream. -/
def parseExprTokens (ts : List Tok) : Option (AstExpr × Tok × List Tok) :=
  match advance ts with
  | (c, ts1) => parse_expr (3 * ts.length + 3) c ts1

/-- Lex a source string and parse it as one expression. -/
def parseString (s : String) : Option (AstExpr × Tok × List Tok) :=
  parseExprTokens (tokensOf s)

/-- Prototypes (parser.cpp:117-129). -/
structure Proto where
  name : String
  args : List String
deriving Repr

/-- The parameter-collecting loop of the first variant's
`parse_prototype` (parser.cpp:300-303):
`while (curr_token == TOK_IDENTIFIER) { args.push_back(identifier_string); }`.
The body never advances the cursor, so the state re-entering the loop is
unchanged except for the ever-growing argument vector; with any finite
fuel the loop fails to exit.  (`identifier_string` still holds the name
carried by the current identifier token.) -/
def protoV1Loop : Nat → Tok → List Tok → List String →
    Option (List String × Tok × List Tok)
  | 0, _, _, _ => none
  | fuel + 1, c, ts, args =>
    match c with
    | Tok.ident s => protoV1Loop fuel (Tok.ident s) ts (args ++ [s])
    | _ => some (args, c, ts)

/-- The second variant's `parse_prototype` (parser.cpp:844-866), whose
parameter loop advances after each captured name. -/
def protoV2Loop : Nat → Tok → List Tok → List String → List String × Tok × List Tok
  | 0, c, ts, args => (args, c, ts)
  | fuel + 1, c, ts, args =>
    match c with
    | Tok.ident s =>
        match advance ts with
        | (c1, ts1) => protoV2Loop fuel c1 ts1 (args ++ [s])
    | _ => (args, c, ts)

/-- `parse_prototype`, second variant (parser.cpp:844-866): current token
is an identifier naming the function. -/
def parse_prototype (name : String) (ts : List Tok) : Option (Proto × Tok × List Tok) :=
  match advance ts with
  | (c1, ts1) =>
    if c1 ≠ Tok.sym 40 then none  -- log_error_proto "Expected '('"
    else
      match advance ts1 with
      | (c2, ts2) =>
        match protoV2Loop (ts2.length + 1) c2 ts2 [] with
        | (args, c3, ts3) =>
          if c3 ≠ Tok.sym 41 then none  -- log_error_proto
          else
            match advance ts3 with
            | (c4, ts4) => some (⟨name, args⟩, c4, ts4)

/-!
## Lowering pass

Model of the IR-emitting variant (parser.cpp:528-717).  The backend is
the abstract IR-builder capability of the spec: the module is the
registry of created functions; every builder call that creates an
instruction is recorded, in order, in an emission trace, and is also
appended to the entry block of the function the builder is positioned
in, when that function is (still) registered.  `verifyFunction`'s result
is discarded by the source (parser.cpp:681), so it has no observable
effect and is not modelled.

Several statements of this variant are ill-typed C++ whose intent is
unambiguous from the surrounding code, and are embedded by that intent:
pointer-syntax slips (`module.getFunction`, `func.empty()`,
`func.args()`, `func.eraseFromParent()`, `arg.getName`, `proto.codegen()`
for the member `prototype`), and the argument loop of
`CallExpr::codegen` (parser.cpp:609-614), which pushes the owned AST
argument into the `std::vector<Value*>` — the guard
`if (!arg_vals.back()) return nullptr;` only makes sense on the result
of `arg->codegen()`, which is what is embedded.  What the source does
*not* do (and the embedding faithfully does not either) is return after
`func.eraseFromParent()` in `AstFuncDef::codegen` (parser.cpp:677-680):
the erase is followed by `builder->CreateRet(body_retval)` and
`return func;`.
-/

/-- IR value handles: floating constants (tracked by numeral text, see
above), formal parameters, and instruction results (numbered by their
position in the emission trace). -/
inductive Value where
  | constFP (s : String)
  | arg (fn : String) (i : Nat)
  | instr (n : Nat)
deriving DecidableEq, Repr

/-- Builder instructions. -/
inductive Instr where
  | fadd (a b : Value)
  | fmul (a b : Value)
  | fsub (a b : Value)
  | fcmpult (a b : Value)
  | uitofp (a : Value)
  | callf (callee : String) (args : List Value)
  | ret (v : Option Value)
deriving Repr

/-- A function in the module: its name, its parameter names (set by
`AstPrototype::codegen`), and its entry block's instruction list —
`none` when the function has no basic blocks (`func->empty()`),
i.e. is a declaration without a body. -/
structure IRFunc where
  name : String
  params : List String
  body : Option (List Instr)
deriving Repr

/-- The mutable state of the lowering pass: the module's function
registry in creation order, the builder's insertion function, the
per-function scope map `named_values`, the diagnostics written by
`log_error`, and the builder emission trace. -/
structure CG where
  module : List IRFunc
  insertPt : Option String
  scope : List (String × Value)
  diags : List String
  trace : List Instr
deriving Repr

/-- `Module::getFunction`: first registered function of that name. -/
def getFunction : List IRFunc → String → Option IRFunc
  | [], _ => none
  | f :: rest, n => if f.name = n then some f else getFunction rest n

/-- `log_error` / `log_error_val`: append one diagnostic line. -/
def addDiag (st : CG) (msg : String) : CG :=
  { st with diags := st.diags ++ [msg] }

/-- Append an instruction to a function's entry block. -/
def pushInstr (m : List IRFunc) (target : Option String) (i : Instr) : List IRFunc :=
  m.map fun f =>
    if target = some f.name then { f with body := f.body.map (fun b => b ++ [i]) }
    else f

/-- A `builder->CreateXxx` call: record the instruction in the trace and
in the entry block of the function the builder is positioned in, when
that function is registered; the result handle is the new instruction. -/
def emit (st : CG) (i : Instr) : Value × CG :=
  (Value.instr st.trace.length,
   { st with trace := st.trace ++ [i],
             module := pushInstr st.module st.insertPt i })

/-- `named_values` lookup.  (The source reads the map with `operator[]`,
which default-inserts a null mapped value for an absent key; a null
entry and an absent entry are indistinguishable to every reader, so the
embedding keeps the map unchanged on lookup.) -/
def lookupVar : List (String × Value) → String → Option Value
  | [], _ => none
  | (k, v) :: rest, n => if k = n then some v else lookupVar rest n

/-- `named_values[name] = v`: `std::map` assignment overwrites the entry
for an existing key. -/
def scopeInsert : List (String × Value) → String → Value → List (String × Value)
  | [], k, v => [(k, v)]
  | (k1, v1) :: rest, k, v =>
      if k1 = k then (k, v) :: rest else (k1, v1) :: scopeInsert rest k v

/-- The `for (auto &arg : func.args()) named_values[...] = &arg;` loop of
`AstFuncDef::codegen` (parser.cpp:672-674), parameter `i` the position
of the next argument. -/
def buildScopeGo (fn : String) : List String → Nat → List (String × Value) →
    List (String × Value)
  | [], _, acc => acc
  | p :: ps, i, acc => buildScopeGo fn ps (i + 1) (scopeInsert acc p (Value.arg fn i))

/-- `named_values.clear()` followed by the parameter loop: the scope map
rebuilt from exactly the function's parameters. -/
def buildScope (f : IRFunc) : List (String × Value) :=
  buildScopeGo f.name f.params 0 []

mutual

/-- `codegen()` of the expression nodes (parser.cpp:537-616):
`NumLiteralExpr`, `VarExpr`, `BinaryExpr` and `CallExpr`. -/
def exprCodegen : AstExpr → CG → Option Value × CG
  | AstExpr.num s, st => (some (Value.constFP s), st)
  | AstExpr.var n, st =>
      match lookupVar st.scope n with
      | some v => (some v, st)
      | none => (none, addDiag st ("Attempted access of undefined variable " ++ n))
  | AstExpr.binary op l r, st =>
      -- both operands are lowered before either result is checked
      match exprCodegen l st with
      | (lv, st1) =>
        match exprCodegen r st1 with
        | (rv, st2) =>
          match lv, rv with
          | some a, some b =>
              if op = 43 then
                match emit st2 (Instr.fadd a b) with
                | (v, st3) => (some v, st3)
              else if op = 42 then
                match emit st2 (Instr.fmul a b) with
                | (v, st3) => (some v, st3)
              else if op = 45 then
                match emit st2 (Instr.fsub a b) with
                | (v, st3) => (some v, st3)
              else if op = 60 then
                match emit st2 (Instr.fcmpult a b) with
                | (v, st3) =>
                  match emit st3 (Instr.uitofp v) with
                  | (w, st4) => (some w, st4)
              else (none, addDiag st2 "Invalid binary operator")
          | _, _ => (none, st2)
  | AstExpr.call callee args, st =>
      match getFunction st.module callee with
      | none => (none, addDiag st "Unknown function being called")
      | some f =>
        if f.params.length ≠ args.length then
          (none, addDiag st "Wrong number of arguments provided in function call")
        else
          match argsCodegen args st with
          | (none, st1) => (none, st1)
          | (some vs, st1) =>
            match emit st1 (Instr.callf callee vs) with
            | (v, st2) => (some v, st2)

/-- The argument loop of `CallExpr::codegen` (parser.cpp:608-614):
lower each argument in order, aborting on the first null result. -/
def argsCodegen : List AstExpr → CG → Option (List Value) × CG
  | [], st => (some [], st)
  | a :: rest, st =>
      match exprCodegen a st with
      | (none, st1) => (none, st1)
      | (some v, st1) =>
        match argsCodegen rest st1 with
        | (none, st2) => (none, st2)
        | (some vs, st2) => (some (v :: vs), st2)

end

/-- `AstPrototype::codegen` (parser.cpp:632-643): create (append) a new
function of the prototype's name, and name its parameters after the
prototype's. -/
def protoCodegen (p : Proto) (st : CG) : Option String × CG :=
  (some p.name, { st with module := st.module ++ [⟨p.name, p.args, none⟩] })

/-- `Module::setFuncBody` helper: `BasicBlock::Create(*context, "entry",
func)` gives the named function its entry block. -/
def setFuncBody (m : List IRFunc) (n : String) (b : Option (List Instr)) : List IRFunc :=
  m.map fun f => if f.name = n then { f with body := b } else f

/-- `func.eraseFromParent()`: remove the named function from the module. -/
def eraseFunc (m : List IRFunc) (n : String) : List IRFunc :=
  m.filter fun f => f.name ≠ n

/-- The tail of `AstFuncDef::codegen` after the redefinition check
(parser.cpp:668-682): create the entry block and position the builder,
rebuild `named_values` from the function's parameters, lower the body,
erase the function on failure — and then, exactly as the source does
(there is no early return at parser.cpp:679), emit
`builder->CreateRet(body_retval)` and return `func` regardless. -/
def defLowerBody (f : IRFunc) (body : AstExpr) (st : CG) : Option String × CG :=
  let st2 : CG := { st with module := setFuncBody st.module f.name (some []),
                            insertPt := some f.name,
                            scope := buildScope f }
  match exprCodegen body st2 with
  | (rv, st3) =>
    let st4 := if rv.isNone then { st3 with module := eraseFunc st3.module f.name } else st3
    (some f.name, (emit st4 (Instr.ret rv)).2)

/-- `AstFuncDef::codegen` (parser.cpp:655-683): reuse the registered
function of that name if any, otherwise create it from the prototype
(which never fails, so the `if (!func) return nullptr;` guard cannot
fire); reject a redefinition when the resolved function already has a
body; then lower the body via `defLowerBody`. -/
def funcDefCodegen (proto : Proto) (body : AstExpr) (st : CG) : Option String × CG :=
  match getFunction st.module proto.name with
  | some f =>
      if f.body.isSome then (none, addDiag st "Function body already defined.")
      else defLowerBody f body st
  | none =>
      match protoCodegen proto st with
      | (_, st1) => defLowerBody ⟨proto.name, proto.args, none⟩ body st1

/-- The initial lowering state: a fresh module, no insertion point, empty
scope, and nothing logged or emitted. -/
def st0 : CG := ⟨[], none, [], [], []⟩

/-- The components of a lowering step observable outside the per-function
scope map: the returned handle, the module registry, the diagnostics and
the emission trace. -/
def cgObs (r : Option String × CG) :
    Option String × List IRFunc × List String × List Instr :=
  (r.1, r.2.module, r.2.diags, r.2.trace)

/-!
## Lexer theorems
-/

theorem skipSpaces_nospace (c : Int) (inp : List Char) (h : isSpaceC c = false) :
    skipSpaces c inp = (c, inp) := by
  cases inp <;> simp [skipSpaces, h]

/-- With the pushback slot holding EOF, `get_token` returns the end token
at once, leaving the slot and the stream untouched. -/
theorem get_token_at_eof (inp : List Char) : get_token (-1) inp = (Tok.eof, -1, inp) := by
  show get_token_core (inp.length + 1) (-1) inp = _
  simp only [get_token_core]
  rw [skipSpaces_nospace _ _ (by decide)]
  norm_num [isAlphaC, isDigitC]

/-- Whenever `get_token_core` produces the end token, the pushback slot it
leaves behind holds EOF. -/
theorem get_token_core_eof_last : ∀ (fuel : Nat) (lc : Int) (inp : List Char),
    (get_token_core fuel lc inp).1 = Tok.eof → (get_token_core fuel lc inp).2.1 = -1 := by
  intro fuel
  induction fuel with
  | zero => intro lc inp _; rfl
  | succ fuel ih =>
    intro lc inp
    simp only [get_token_core]
    rcases skipSpaces lc inp with ⟨c, inp1⟩
    by_cases ha : isAlphaC c
    · simp only [ha, if_true]
      rcases readChar inp1 with ⟨d, inp2⟩
      rcases readRun isAlnumC (String.singleton (Char.ofNat c.toNat)) d inp2 with ⟨s, e, inp3⟩
      intro h
      exfalso
      by_cases h1 : s = "def" <;> by_cases h2 : s = "extern" <;>
        simp [h1, h2] at h
    · by_cases hd : isDigitC c
      · simp only [ha, hd, if_true, if_false]
        rcases readChar inp1 with ⟨d, inp2⟩
        rcases readRun (fun x => isDigitC x || x = 46)
          (String.singleton (Char.ofNat c.toNat)) d inp2 with ⟨s, e, inp3⟩
        intro h
        exact absurd h (by simp)
      · by_cases hc : c = 35
        · simp only [ha, hd, hc, if_true, if_false]
          rcases readChar inp1 with ⟨d, inp2⟩
          rcases skipToEol d inp2 with ⟨e, inp3⟩
          by_cases he : e = -1
          · simp [he, isAlphaC, isDigitC]
          · simp only [he, ne_eq, not_false_iff, if_true]
            rcases readChar inp3 with ⟨f, inp4⟩
            exact ih f inp4
        · by_cases hm : c = -1
          · simp [hc, hm, isAlphaC, isDigitC]
          · simp only [ha, hd, hc, hm, if_false]
            rcases readChar inp1 with ⟨d, inp2⟩
            intro h
            exact absurd h (by simp)

theorem get_token_eof_last (lc : Int) (inp : List Char)
    (h : (get_token lc inp).1 = Tok.eof) : (get_token lc inp).2.1 = -1 :=
  get_token_core_eof_last _ lc inp h

/-!
## Claim theorems
-/

/-- C9: running the lexer's `get_token` repeatedly on the character
stream of "def foo(a b) a+b*2" yields exactly: def-keyword,
identifier "foo", '(', identifier "a", identifier "b", ')',
identifier "a", '+', identifier "b", '*', number 2, end-of-input, with
whitespace skipped before each classification. -/
theorem C9_token_sequence :
    tokensOf "def foo(a b) a+b*2" =
      [Tok.kdef, Tok.ident "foo", Tok.sym 40, Tok.ident "a", Tok.ident "b",
       Tok.sym 41, Tok.ident "a", Tok.sym 43, Tok.ident "b", Tok.sym 42,
       Tok.num "2", Tok.eof] := by
  decide

/-- C10: the end-of-input token is absorbing: whenever `get_token`
returns the end token, the persistent pushback slot it leaves behind
holds EOF, and the next call returns the end token again with an
unchanged state — on every input stream, including a trailing comment
running to end-of-input. -/
theorem C10_eof_absorbing (lc : Int) (inp : List Char)
    (h : (get_token lc inp).1 = Tok.eof) :
    (get_token lc inp).2.1 = -1 ∧
    get_token (get_token lc inp).2.1 (get_token lc inp).2.2 =
      (Tok.eof, -1, (get_token lc inp).2.2) := by
  have h1 := get_token_eof_last lc inp h
  exact ⟨h1, by rw [h1, get_token_at_eof]⟩

/-- Witness for C10 at the concrete state reached after a trailing
comment runs to end-of-input. -/
theorem C10_eof_absorbing_witness :
    (get_token 32 "# c".toList).1 = Tok.eof ∧
    get_token (get_token 32 "# c".toList).2.1 (get_token 32 "# c".toList).2.2 =
      (Tok.eof, -1, (get_token 32 "# c".toList).2.2) :=
  ⟨by decide, (C10_eof_absorbing 32 "# c".toList (by decide)).2⟩

/-- C1: the fixed precedence table maps '<' to 10, '+' and '-' to 20,
'*' to 40 and every other character to -1, and in an expression where a
'+' is followed by a '*' (the token stream of "1+2*3" and every stream
of that shape) `parse_expr` produces the BinaryOp('+') node whose right
child is the BinaryOp('*') node: the higher-precedence operator binds
tighter. -/
theorem C1_higher_precedence_binds_tighter :
    (get_binary_precedence 60 = 10 ∧ get_binary_precedence 43 = 20 ∧
     get_binary_precedence 45 = 20 ∧ get_binary_precedence 42 = 40 ∧
     ∀ c : Int, c ≠ 60 → c ≠ 43 → c ≠ 45 → c ≠ 42 → get_binary_precedence c = -1) ∧
    (∀ a b c : String,
       parseExprTokens [Tok.num a, Tok.sym 43, Tok.num b, Tok.sym 42, Tok.num c] =
         some (AstExpr.binary 43 (AstExpr.num a)
                 (AstExpr.binary 42 (AstExpr.num b) (AstExpr.num c)), Tok.eof, [])) ∧
    parseString "1+2*3" =
      some (AstExpr.binary 43 (AstExpr.num "1")
              (AstExpr.binary 42 (AstExpr.num "2") (AstExpr.num "3")), Tok.eof, []) := by
  refine ⟨⟨rfl, rfl, rfl, rfl, ?_⟩, fun a b c => rfl, rfl⟩
  intro c h60 h43 h45 h42
  simp [get_binary_precedence, h60, h43, h45, h42]

/-- Witness for C1 instantiating the default row of the precedence table
at '/' (47) and the shaped parse at the numerals 7, 8, 9. -/
theorem C1_higher_precedence_binds_tighter_witness :
    get_binary_precedence 47 = -1 ∧
    parseExprTokens [Tok.num "7", Tok.sym 43, Tok.num "8", Tok.sym 42, Tok.num "9"] =
      some (AstExpr.binary 43 (AstExpr.num "7")
              (AstExpr.binary 42 (AstExpr.num "8") (AstExpr.num "9")), Tok.eof, []) :=
  ⟨C1_higher_precedence_binds_tighter.1.2.2.2.2 47 (by decide) (by decide) (by decide)
     (by decide),
   C1_higher_precedence_binds_tighter.2.1 "7" "8" "9"⟩

/-- C2: chains of equal-precedence operators group left-associatively:
the token stream of "1-2-3" (and every stream of that shape, also with
the equal-precedence pair '+' then '-') parses to
BinaryOp('-', BinaryOp(op, 1, 2), 3) — the regrouping recursion of
`parse_bin_op_rhs` fires only for a strictly greater lookahead
precedence, never for an equal one. -/
theorem C2_equal_precedence_left_assoc :
    (∀ a b c : String,
       parseExprTokens [Tok.num a, Tok.sym 45, Tok.num b, Tok.sym 45, Tok.num c] =
         some (AstExpr.binary 45 (AstExpr.binary 45 (AstExpr.num a) (AstExpr.num b))
                 (AstExpr.num c), Tok.eof, [])) ∧
    (∀ a b c : String,
       parseExprTokens [Tok.num a, Tok.sym 43, Tok.num b, Tok.sym 45, Tok.num c] =
         some (AstExpr.binary 45 (AstExpr.binary 43 (AstExpr.num a) (AstExpr.num b))
                 (AstExpr.num c), Tok.eof, [])) ∧
    parseString "1-2-3" =
      some (AstExpr.binary 45 (AstExpr.binary 45 (AstExpr.num "1") (AstExpr.num "2"))
              (AstExpr.num "3"), Tok.eof, []) :=
  ⟨fun _ _ _ => rfl, fun _ _ _ => rfl, rfl⟩

/-- C3 (counter-evidence): the argument loop of `parse_identifier` never
consumes the ',' after an argument (the advance is missing at
parser.cpp:209-211 and 763-765), so the two-argument call "f(1, 2)"
fails to parse, while a one-argument call and a zero-argument call
(')' immediately after '(') succeed with the arguments in source
order. -/
theorem C3_two_argument_call_fails :
    parse_identifier 20 "f"
      [Tok.sym 40, Tok.num "1", Tok.sym 44, Tok.num "2", Tok.sym 41] = none ∧
    parse_identifier 20 "f" [Tok.sym 40, Tok.num "1", Tok.sym 41] =
      some (AstExpr.call "f" [AstExpr.num "1"], Tok.eof, []) ∧
    parse_identifier 20 "f" [Tok.sym 40, Tok.sym 41] =
      some (AstExpr.call "f" [], Tok.eof, []) :=
  ⟨rfl, rfl, rfl⟩

/-- C6 (counter-evidence): the first variant's prototype parameter loop
(parser.cpp:300-303) never advances the cursor, so with an identifier as
the current token it never exits: it re-enters the loop in the same
cursor state for any amount of fuel.  (The second variant,
parser.cpp:855-858, advances and terminates; see `parse_prototype`.) -/
theorem C6_prototype_loop_never_exits :
    ∀ (fuel : Nat) (s : String) (ts : List Tok) (args : List String),
      protoV1Loop fuel (Tok.ident s) ts args = none := by
  intro fuel
  induction fuel with
  | zero => intro s ts args; rfl
  | succ fuel ih =>
    intro s ts args
    show protoV1Loop fuel (Tok.ident s) ts (args ++ [s]) = none
    exact ih s ts (args ++ [s])

/-!
## Scope-map lemmas
-/

theorem lookupVar_scopeInsert (s : List (String × Value)) (k : String) (v : Value)
    (n : String) :
    lookupVar (scopeInsert s k v) n = if k = n then some v else lookupVar s n := by
  induction s with
  | nil =>
    by_cases h : k = n <;> simp [scopeInsert, lookupVar, h]
  | cons p rest ih =>
    rcases p with ⟨k1, v1⟩
    by_cases h1 : k1 = k
    · subst h1
      by_cases h : k1 = n <;> simp [scopeInsert, lookupVar, h]
    · by_cases h : k1 = n
      · subst h
        have hkn : ¬k = k1 := fun hh => h1 hh.symm
        simp [scopeInsert, lookupVar, h1, hkn]
      · simp [scopeInsert, lookupVar, h1, h, ih]

theorem lookupVar_buildScopeGo (fn : String) :
    ∀ (ps : List String) (i : Nat) (acc : List (String × Value)) (n : String),
      lookupVar (buildScopeGo fn ps i acc) n ≠ none ↔
        n ∈ ps ∨ lookupVar acc n ≠ none := by
  intro ps
  induction ps with
  | nil => intro i acc n; simp [buildScopeGo]
  | cons p rest ih =>
    intro i acc n
    show lookupVar (buildScopeGo fn rest (i + 1) (scopeInsert acc p (Value.arg fn i))) n ≠
        none ↔ _
    rw [ih (i + 1) (scopeInsert acc p (Value.arg fn i)) n, lookupVar_scopeInsert]
    by_cases h : p = n
    · subst h
      simp
    · have h2 : ¬n = p := fun hh => h hh.symm
      simp [h, h2, List.mem_cons]

/-- The scope map built by `AstFuncDef::codegen` resolves exactly the
function's parameter names. -/
theorem lookupVar_buildScope (f : IRFunc) (n : String) :
    lookupVar (buildScope f) n ≠ none ↔ n ∈ f.params := by
  rw [buildScope, lookupVar_buildScopeGo f.name f.params 0 [] n]
  simp [lookupVar]

/-- C4 (counter-evidence): lowering `def foo() x` — whose body is the
undefined variable `x` — over a fresh module erases the partially built
function from the registry (the module comes back empty), but then, with
no early return after the erase (parser.cpp:677-680), a return
instruction carrying the null result is still emitted through the
builder, and the erased function's handle, not an absent result, is
returned. -/
theorem C4_erase_then_ret_emitted :
    funcDefCodegen ⟨"foo", []⟩ (AstExpr.var "x") st0 =
      (some "foo",
       ⟨[], some "foo", [],
        ["Attempted access of undefined variable x"],
        [Instr.ret none]⟩) := rfl

/-- C5: redefining a function whose registered entry already has a body
fails with the redefinition diagnostic, leaving the state unchanged
except for that diagnostic — the registry keeps only the first, intact
definition; and lowering `def foo(a b) a+b` after the body-less
declaration left by `extern foo(a b)` reuses that declaration: the
module ends with exactly one `foo` entry, now carrying the body, and
the definition succeeds. -/
theorem C5_redefinition_rejected :
    (∀ (proto : Proto) (body : AstExpr) (st : CG) (f : IRFunc),
       getFunction st.module proto.name = some f → f.body.isSome = true →
       funcDefCodegen proto body st =
         (none, addDiag st "Function body already defined.")) ∧
    funcDefCodegen ⟨"foo", ["a", "b"]⟩
        (AstExpr.binary 43 (AstExpr.var "a") (AstExpr.var "b"))
        (protoCodegen ⟨"foo", ["a", "b"]⟩ st0).2 =
      (some "foo",
       ⟨[⟨"foo", ["a", "b"],
          some [Instr.fadd (Value.arg "foo" 0) (Value.arg "foo" 1),
                Instr.ret (some (Value.instr 0))]⟩],
        some "foo",
        [("a", Value.arg "foo" 0), ("b", Value.arg "foo" 1)],
        [],
        [Instr.fadd (Value.arg "foo" 0) (Value.arg "foo" 1),
         Instr.ret (some (Value.instr 0))]⟩) := by
  constructor
  · intro proto body st f hf hb
    simp only [funcDefCodegen, hf, hb, if_true]
  · rfl

/-- Witness for C5 at the spec's example: `def foo(a) a` followed by
`def foo(a) a+1` fails with the redefinition diagnostic and changes
nothing else. -/
theorem C5_redefinition_rejected_witness :
    funcDefCodegen ⟨"foo", ["a"]⟩
        (AstExpr.binary 43 (AstExpr.var "a") (AstExpr.num "1"))
        (funcDefCodegen ⟨"foo", ["a"]⟩ (AstExpr.var "a") st0).2 =
      (none, addDiag (funcDefCodegen ⟨"foo", ["a"]⟩ (AstExpr.var "a") st0).2
        "Function body already defined.") :=
  C5_redefinition_rejected.1 ⟨"foo", ["a"]⟩
    (AstExpr.binary 43 (AstExpr.var "a") (AstExpr.num "1"))
    (funcDefCodegen ⟨"foo", ["a"]⟩ (AstExpr.var "a") st0).2
    ⟨"foo", ["a"], some [Instr.ret (some (Value.arg "foo" 0))]⟩ rfl rfl

/-- C7 (counterexample): a call whose callee resolves and whose argument
count matches can still fail to lower — here `f(x)` against a module
declaring `f(a)`, with `x` unbound — so "fails if and only if the callee
does not resolve or the argument count differs" is false as stated. -/
theorem C7_resolved_arity_ok_call_fails :
    getFunction [IRFunc.mk "f" ["a"] none] "f" = some ⟨"f", ["a"], none⟩ ∧
    ([AstExpr.var "x"] : List AstExpr).length = (["a"] : List String).length ∧
    (exprCodegen (AstExpr.call "f" [AstExpr.var "x"])
        ⟨[⟨"f", ["a"], none⟩], none, [], [], []⟩).1 = none :=
  ⟨rfl, rfl, rfl⟩

/-- C7 (amended): lowering a Call fails exactly when the callee does not
resolve, the argument count differs from the callee's parameter count,
or lowering one of the arguments fails; the unknown-function failure
changes the state only by its diagnostic (no IR operation is emitted);
and on success the arguments are lowered in order (the argument loop)
and the call operation is emitted last. -/
theorem C7_call_lowering_amended :
    (∀ (callee : String) (args : List AstExpr) (st : CG),
       (exprCodegen (AstExpr.call callee args) st).1 = none ↔
         (getFunction st.module callee = none ∨
          (∃ f, getFunction st.module callee = some f ∧
                f.params.length ≠ args.length) ∨
          (argsCodegen args st).1 = none)) ∧
    (∀ (callee : String) (args : List AstExpr) (st : CG),
       getFunction st.module callee = none →
       exprCodegen (AstExpr.call callee args) st =
         (none, addDiag st "Unknown function being called")) ∧
    (∀ (callee : String) (args : List AstExpr) (st : CG) (f : IRFunc)
       (vs : List Value) (st1 : CG),
       getFunction st.module callee = some f →
       f.params.length = args.length →
       argsCodegen args st = (some vs, st1) →
       exprCodegen (AstExpr.call callee args) st =
         (some (Value.instr st1.trace.length),
          { st1 with trace := st1.trace ++ [Instr.callf callee vs],
                     module := pushInstr st1.module st1.insertPt
                                 (Instr.callf callee vs) })) := by
  refine ⟨?_, ?_, ?_⟩
  · intro callee args st
    rcases hf : getFunction st.module callee with _ | f
    · simp [exprCodegen, hf]
    · by_cases hl : f.params.length = args.length
      · rcases ha : argsCodegen args st with ⟨o, st1⟩
        cases o with
        | none => simp [exprCodegen, hf, hl, ha]
        | some vs => simp [exprCodegen, hf, hl, ha, emit]
      · simp [exprCodegen, hf, hl]
  · intro callee args st hf
    simp [exprCodegen, hf]
  · intro callee args st f vs st1 hf hl ha
    simp [exprCodegen, hf, hl, ha, emit]

/-- Witness for C7's amended statement: an unknown callee over the fresh
state fails with exactly the unknown-function diagnostic. -/
theorem C7_call_lowering_amended_witness :
    getFunction st0.module "g" = none ∧
    exprCodegen (AstExpr.call "g" []) st0 =
      (none, addDiag st0 "Unknown function being called") :=
  ⟨rfl, C7_call_lowering_amended.2.1 "g" [] st0 rfl⟩

/-- C8: scope isolation of function lowering.  First, everything
observable of `AstFuncDef::codegen` — result, module registry,
diagnostics and emission trace — is independent of the scope map left by
any previously lowered function, because `named_values` is cleared and
rebuilt before the body is lowered.  Second, under the scope map rebuilt
from a function's parameters, lowering a variable reference succeeds
exactly when the name is one of that function's parameters, and an
absent entry is the "undefined variable" failure. -/
theorem C8_scope_isolation :
    (∀ (proto : Proto) (body : AstExpr) (st : CG)
       (s1 s2 : List (String × Value)),
       cgObs (funcDefCodegen proto body { st with scope := s1 }) =
         cgObs (funcDefCodegen proto body { st with scope := s2 })) ∧
    (∀ (f : IRFunc) (st : CG) (name : String),
       ((exprCodegen (AstExpr.var name) { st with scope := buildScope f }).1 ≠ none ↔
          name ∈ f.params) ∧
       (name ∉ f.params →
          exprCodegen (AstExpr.var name) { st with scope := buildScope f } =
            (none, addDiag { st with scope := buildScope f }
              ("Attempted access of undefined variable " ++ name)))) := by
  constructor
  · intro proto body st s1 s2
    obtain ⟨m, ip, sc, dg, tr⟩ := st
    rcases hf : getFunction m proto.name with _ | f
    · simp [funcDefCodegen, hf, protoCodegen, defLowerBody, cgObs]
    · by_cases hb : f.body.isSome <;>
        simp [funcDefCodegen, hf, hb, defLowerBody, cgObs, addDiag]
  · intro f st name
    constructor
    · rcases hv : lookupVar (buildScope f) name with _ | v
      · simp only [exprCodegen, hv]
        constructor
        · intro h
          exact absurd rfl h
        · intro hmem
          exact absurd hv (by simpa using (lookupVar_buildScope f name).mpr hmem)
      · simp only [exprCodegen, hv]
        constructor
        · intro _
          exact (lookupVar_buildScope f name).mp (by simp [hv])
        · intro _
          simp
    · intro hmem
      have hv : lookupVar (buildScope f) name = none := by
        by_contra h
        exact hmem ((lookupVar_buildScope f name).mp h)
      simp [exprCodegen, hv]

/-- Witness for C8: under the scope built for a function with single
parameter "a", the variable "b" does not resolve and fails with the
undefined-variable diagnostic. -/
theorem C8_scope_isolation_witness :
    ((exprCodegen (AstExpr.var "b")
        { st0 with scope := buildScope ⟨"g", ["a"], none⟩ }).1 ≠ none ↔
       "b" ∈ (IRFunc.mk "g" ["a"] none).params) ∧
    exprCodegen (AstExpr.var "b")
        { st0 with scope := buildScope ⟨"g", ["a"], none⟩ } =
      (none, addDiag { st0 with scope := buildScope ⟨"g", ["a"], none⟩ }
        ("Attempted access of undefined variable " ++ "b")) :=
  ⟨(C8_scope_isolation.2 ⟨"g", ["a"], none⟩ st0 "b").1,
   (C8_scope_isolation.2 ⟨"g", ["a"], none⟩ st0 "b").2 (by decide)⟩

end Kaleidoscope
